import Mathlib

/-!
Verification development for the core of a tree-walking interpreter
(lexer, Pratt parser, evaluator) for the Monkey-style source language.

The abstract syntax tree, the object model and the evaluator are shallow
embeddings of the Go source (`ast/ast.go`, the `object` package variants,
`parser/parser.go` and its fuller variant, and the evaluator variant that
carries an environment and first-class `Error` values).  Go interface
values that may be `nil` are embedded as `Option`; a Go panic (nil
dereference, integer division by zero) and fuel exhaustion are embedded as
the outermost `none` of a result, so that a `some` result is a behaviour
the Go program actually exhibits.  Machine integers (`int64`) are embedded
as `Int` with an explicit two's-complement wrap at word size.

Parts of the repository are declared or called in the sources but their
defining code is absent (the token and lexer packages, the `Environment`
type, `object.Macro`, and the function-application cases of `Eval`); those
definitions are modelled from the specification and are each marked
`Modelled from the spec:` in their doc comment.
-/

namespace Monkey

/- AST node token fields (`Token token.Token` on every node) are used only
for error reporting and pretty-printing, never by the evaluator; they are
omitted from the embedding.  Fields that a failed parse leaves as Go `nil`
(`LetStatement.Value`, `ReturnStatement.ReturnValue`, expression operands)
are embedded as `Option`.  A `BlockStatement` is embedded as its statement
list; the always-non-nil `Consequence` and function `Body` blocks are plain
lists while the genuinely optional `Alternative` is an `Option`. -/
mutual

inductive Expression where
  | identifier (value : String)
  | integerLiteral (value : Int)
  | booleanLit (value : Bool)
  | prefixExpression (operator : String) (right : Option Expression)
  | infixExpression (operator : String) (left : Option Expression) (right : Option Expression)
  | ifExpression (condition : Option Expression) (consequence : List Statement)
      (alternative : Option (List Statement))
  | functionLiteral (parameters : List String) (body : List Statement)
  | callExpression (function : Option Expression) (arguments : List (Option Expression))
  | macroLiteral (parameters : List String) (body : List Statement)

inductive Statement where
  | letStatement (name : Option String) (value : Option Expression)
  | returnStatement (returnValue : Option Expression)
  | expressionStatement (expression : Option Expression)
  | blockStatement (statements : List Statement)

end

/-- The three shapes of `ast.Node` that `Eval` dispatches on: a program, a
statement, an expression. -/
inductive Node where
  | prog (statements : List Statement)
  | stm (s : Statement)
  | exp (e : Expression)

/-- The runtime value model (`object` package).  `ReturnValue.Value` may be
Go `nil` (the parser's return-skipping bug makes `Eval` wrap `nil`), hence
`Option Object`.  `Function` and `Macro` capture their defining environment
as an index into the store of environment frames.  `Macro` is declared in
the sources (`object.Macro` in `DefineMacros`) but its definition is absent;
its fields are modelled from the spec: `Macro(params, body, env)`. -/
inductive Object where
  | integer (value : Int)
  | boolean (value : Bool)
  | null
  | returnValue (value : Option Object)
  | error (message : String)
  | function (parameters : List String) (body : List Statement) (env : Nat)
  | macroObject (parameters : List String) (body : List Statement) (env : Nat)

/-- `object.ObjectType` tags, as returned by each variant's `Type()`.
The `MACRO` tag is modelled from the spec (the `Macro` struct is absent
from the sources). -/
def typeOf : Object → String
  | .integer _ => "INTEGER"
  | .boolean _ => "BOOLEAN"
  | .null => "NULL"
  | .returnValue _ => "RETURN_VALUE"
  | .error _ => "ERROR"
  | .function _ _ _ => "FUNCTION"
  | .macroObject _ _ _ => "MACRO"

/-- The interned singletons of the evaluator package.  In the embedding the
two boolean objects and the null object are represented by value; this is
faithful because every boolean object the evaluator produces goes through
`nativeBoolToBooleanObject` and every null is the one `NULL`, so pointer
identity of these objects coincides with value identity. -/
def NULL : Object := Object.null

def TRUE : Object := Object.boolean true

def FALSE : Object := Object.boolean false

/-- Modelled from the spec: an `Environment` is a mapping from identifier
name to value with an optional link to an outer environment.  Environments
are shared and mutable in Go; the embedding stores every frame in a global
`Store` (a list of frames) and passes frame indices around, threading the
store through evaluation.  A binding's value may be Go `nil`. -/
structure Environment where
  store : List (String × Option Object)
  outer : Option Nat

abbrev Store := List Environment

/-- Lookup in one frame's map (`e.store[name]`): `none` models `ok = false`. -/
def frameGet : List (String × Option Object) → String → Option (Option Object)
  | [], _ => none
  | (k, v) :: rest, n => if k == n then some v else frameGet rest n

/-- Update of one frame's map (`e.store[name] = val`). -/
def frameSet : List (String × Option Object) → String → Option Object → List (String × Option Object)
  | [], n, v => [(n, v)]
  | (k, w) :: rest, n, v => if k == n then (n, v) :: rest else (k, w) :: frameSet rest n v

/-- Modelled from the spec: `Environment.Get` walks outward until a binding
is found or the chain ends.  The fuel argument bounds the walk; every
environment chain the interpreter builds has strictly decreasing outer
indices, so fuel `st.length` always suffices. -/
def envGetAux : Nat → Store → Nat → String → Option (Option Object)
  | 0, _, _, _ => none
  | f + 1, st, ref, name =>
    match st.get? ref with
    | none => none
    | some fr =>
      match frameGet fr.store name with
      | some v => some v
      | none =>
        match fr.outer with
        | some o => envGetAux f st o name
        | none => none

def envGet (st : Store) (ref : Nat) (name : String) : Option (Option Object) :=
  envGetAux st.length st ref name

/-- Modelled from the spec: `Environment.Set` always writes into the frame
it is called on (the innermost scope). -/
def envSet (ref : Nat) (name : String) (val : Option Object) (st : Store) : Store :=
  match st.get? ref with
  | none => st
  | some fr => st.set ref ⟨frameSet fr.store name val, fr.outer⟩

/-- Two's-complement wrap-around of Go `int64` arithmetic. -/
def wrap64 (n : Int) : Int := (n + 2 ^ 63) % 2 ^ 64 - 2 ^ 63

/-- `nativeBoolToBooleanObject`: return the interned boolean for a native bool. -/
def nativeBoolToBooleanObject (input : Bool) : Object :=
  if input then TRUE else FALSE

/-- `isError`: `obj != nil && obj.Type() == ERROR_OBJ`. -/
def isError : Option Object → Bool
  | some (.error _) => true
  | _ => false

/-- `isTruthy`: `NULL` and `FALSE` are falsy, everything else (including a
Go `nil` result, which falls into the switch's default branch) is truthy. -/
def isTruthy : Option Object → Bool
  | some .null => false
  | some (.boolean true) => true
  | some (.boolean false) => false
  | _ => true

/-- `evalBangOperatorExpression`: a pointer switch against the interned
`TRUE`/`FALSE`/`NULL`; every other operand — a Go `nil` included — takes
the default branch and yields `FALSE`. -/
def evalBangOperatorExpression : Option Object → Object
  | some (.boolean true) => FALSE
  | some (.boolean false) => TRUE
  | some .null => TRUE
  | _ => FALSE

/-- `evalMinusPrefixOperatorExpression`.  On a Go `nil` operand the source
dereferences `right.Type()` and panics: embedded as `none`. -/
def evalMinusPrefixOperatorExpression : Option Object → Option Object
  | none => none
  | some (.integer v) => some (.integer (wrap64 (-v)))
  | some r => some (.error ("unknown operator: -" ++ typeOf r))

/-- `evalPrefixExpression`: dispatch on the operator string. -/
def evalPrefixExpression (operator : String) (right : Option Object) : Option Object :=
  if operator == "!" then some (evalBangOperatorExpression right)
  else if operator == "-" then evalMinusPrefixOperatorExpression right
  else
    match right with
    | none => none
    | some r => some (.error ("unknown operator: " ++ operator ++ typeOf r))

/-- `evalIntegerInfixExpression`: both operands are `*object.Integer`
(the caller guarantees it; any other operand would make the Go type
assertion panic, embedded as `none`).  Division is the host's `int64`
division: truncation toward zero, wrapping on overflow, and a panic —
`none` — when the divisor is zero. -/
def evalIntegerInfixExpression (operator : String) (left right : Object) : Option Object :=
  match left, right with
  | .integer leftVal, .integer rightVal =>
    match operator with
    | "+" => some (.integer (wrap64 (leftVal + rightVal)))
    | "-" => some (.integer (wrap64 (leftVal - rightVal)))
    | "*" => some (.integer (wrap64 (leftVal * rightVal)))
    | "/" =>
      if rightVal == 0 then none
      else some (.integer (wrap64 (Int.tdiv leftVal rightVal)))
    | "<" => some (nativeBoolToBooleanObject (decide (leftVal < rightVal)))
    | ">" => some (nativeBoolToBooleanObject (decide (leftVal > rightVal)))
    | "==" => some (nativeBoolToBooleanObject (leftVal == rightVal))
    | "!=" => some (nativeBoolToBooleanObject (leftVal != rightVal))
    | _ => some (.error ("unknown operator: " ++ typeOf left ++ " " ++ operator ++ " " ++ typeOf right))
  | _, _ => none

/-- Go interface pointer equality (`left == right`) on runtime objects, as
determined by the value model: interface values of different dynamic types
are never equal; the interned booleans and null compare by value because
exactly one instance of each exists; for two objects of a heap-allocated
type (integers, functions, …) pointer identity is not determined by the
value, embedded as `none` (the integer/integer case is unreachable from
`evalInfixExpression`, whose integer branch is ordered first). -/
def goRefEq : Object → Object → Option Bool
  | .boolean a, .boolean b => some (a == b)
  | .null, .null => some true
  | .integer _, .integer _ => none
  | .returnValue _, .returnValue _ => none
  | .error _, .error _ => none
  | .function _ _ _, .function _ _ _ => none
  | .macroObject _ _ _, .macroObject _ _ _ => none
  | _, _ => some false

/-- `evalInfixExpression`: the integer/integer branch comes first; then the
`==`/`!=` pointer-comparison branches; then type mismatch; then unknown
operator. -/
def evalInfixExpression (operator : String) (left right : Object) : Option Object :=
  if typeOf left == "INTEGER" && typeOf right == "INTEGER" then
    evalIntegerInfixExpression operator left right
  else if operator == "==" then
    (goRefEq left right).map fun b => nativeBoolToBooleanObject b
  else if operator == "!=" then
    (goRefEq left right).map fun b => nativeBoolToBooleanObject (!b)
  else if typeOf left != typeOf right then
    some (.error ("type mismatch: " ++ typeOf left ++ " " ++ operator ++ " " ++ typeOf right))
  else
    some (.error ("unknown operator: " ++ typeOf left ++ " " ++ operator ++ " " ++ typeOf right))

/-- `evalIdentifier`: look the name up in the environment chain; a missing
name yields an error object. -/
def evalIdentifier (env : Nat) (name : String) (st : Store) : Option (Option Object × Store) :=
  match envGet st env name with
  | some val => some (val, st)
  | none => some (some (.error ("identifier not found: " ++ name)), st)

/-- Modelled from the spec: unwrap one outer `ReturnValue` layer before a
call returns. -/
def unwrapReturnValue : Option Object → Option Object
  | some (.returnValue v) => v
  | obj => obj

/-- The type of the recursive evaluator passed to the loop helpers: the
embedding's `Eval` at one fuel level less. -/
abbrev EvalF := Node → Nat → Store → Option (Option Object × Store)

/-- Whether the statement loop of `evalProgram` ran to completion
(`normal`, carrying the last statement's result) or returned early out of
its `switch` (`stopped`, carrying the value the `return` statement of the
Go source hands back: the unwrapped `ReturnValue` payload, or the error
object). -/
inductive ProgOut where
  | stopped (v : Option Object)
  | normal (v : Option Object)

def ProgOut.val : ProgOut → Option Object
  | .stopped v => v
  | .normal v => v

/-- The statement loop of `evalProgram`: evaluate statements in order,
tracking the last result; on a `ReturnValue` stop and hand back its
unwrapped payload, on an `Error` stop and hand it back. -/
def evalStatementsGo (evalF : EvalF) : List Statement → Option Object → Nat → Store →
    Option (ProgOut × Store)
  | [], result, _, st => some (.normal result, st)
  | statement :: rest, _, env, st =>
    match evalF (.stm statement) env st with
    | none => none
    | some (result, st1) =>
      match result with
      | some (.returnValue v) => some (.stopped v, st1)
      | some (.error m) => some (.stopped (some (.error m)), st1)
      | _ => evalStatementsGo evalF rest result env st1

/-- `evalProgram`: the loop's outcome, early-returned or fallen through,
is the program's result. -/
def evalProgram (evalF : EvalF) (statements : List Statement) (env : Nat) (st : Store) :
    Option (Option Object × Store) :=
  match evalStatementsGo evalF statements none env st with
  | none => none
  | some (out, st1) => some (out.val, st1)

/-- The statement loop of `evalBlockStatement`: as `evalProgram`, except a
`ReturnValue` is propagated **unchanged** (not unwrapped), so it keeps
bubbling up through enclosing blocks. -/
def evalBlockStatement (evalF : EvalF) : List Statement → Option Object → Nat → Store →
    Option (Option Object × Store)
  | [], result, _, st => some (result, st)
  | statement :: rest, _, env, st =>
    match evalF (.stm statement) env st with
    | none => none
    | some (result, st1) =>
      match result with
      | some (.returnValue v) => some (some (.returnValue v), st1)
      | some (.error m) => some (some (.error m), st1)
      | _ => evalBlockStatement evalF rest result env st1

/-- `evalIfExpression`: evaluate the condition (propagating an error), then
the consequence when truthy, else the alternative when present, else `NULL`. -/
def evalIfExpression (evalF : EvalF) (condition : Option Expression)
    (consequence : List Statement) (alternative : Option (List Statement))
    (env : Nat) (st : Store) : Option (Option Object × Store) :=
  match (match condition with
         | none => some ((none : Option Object), st)
         | some c => evalF (.exp c) env st) with
  | none => none
  | some (cond, st1) =>
    if isError cond then some (cond, st1)
    else if isTruthy cond then evalF (.stm (.blockStatement consequence)) env st1
    else
      match alternative with
      | some alt => evalF (.stm (.blockStatement alt)) env st1
      | none => some (some NULL, st1)

/-- Modelled from the spec: evaluate each call argument in left-to-right
order, short-circuiting on the first error (`Sum.inl` carries that first
error object, `Sum.inr` the evaluated argument values). -/
def evalExpressions (evalF : EvalF) : List (Option Expression) → Nat → Store →
    Option ((Object ⊕ List (Option Object)) × Store)
  | [], _, st => some (.inr [], st)
  | a :: rest, env, st =>
    match (match a with
           | none => some ((none : Option Object), st)
           | some e => evalF (.exp e) env st) with
    | none => none
    | some (v, st1) =>
      match v with
      | some (.error m) => some (.inl (.error m), st1)
      | _ =>
        match evalExpressions evalF rest env st1 with
        | none => none
        | some (.inl err, st2) => some (.inl err, st2)
        | some (.inr vs, st2) => some (.inr (v :: vs), st2)

/-- Modelled from the spec: bind each parameter to the corresponding
argument in positional order, by successive `Set` into the fresh frame. -/
def bindParameters (parameters : List String) (args : List (Option Object)) :
    List (String × Option Object) :=
  (parameters.zip args).foldl (fun bs pa => frameSet bs pa.1 pa.2) []

/-- Modelled from the spec: apply a function value by creating a fresh
environment whose outer link is the function's **captured** environment
(not the caller's), binding each parameter to the corresponding argument in
positional order, evaluating the body as a block, and unwrapping any outer
`ReturnValue` layer before returning.  The spec does not define applying a
non-function value, nor a call with fewer arguments than parameters; both
are embedded as the undefined result `none`. -/
def applyFunction (evalF : EvalF) (fn : Option Object) (args : List (Option Object))
    (st : Store) : Option (Option Object × Store) :=
  match fn with
  | some (.function parameters body fnEnv) =>
    if parameters.length ≤ args.length then
      let newEnvRef := st.length
      let st1 := st ++ [⟨bindParameters parameters args, some fnEnv⟩]
      match evalF (.stm (.blockStatement body)) newEnvRef st1 with
      | none => none
      | some (evaluated, st2) => some (unwrapReturnValue evaluated, st2)
    else none
  | _ => none

/-- `Eval`, the single dispatching entry point of the evaluator (the
variant that threads an environment and produces first-class `Error`
values), extended — `Modelled from the spec:` — with the `FunctionLiteral`
and `CallExpression` cases that the sources only declare support for
(`object.Function` exists, the parser builds `CallExpression` nodes, but
the application code is absent from the sources).  Node shapes outside the
dispatch (`MacroLiteral`, a `nil` node) fall through to the trailing
`return nil`.  The `Nat` argument is recursion fuel: `none` means the
computation was cut off (or hit a Go panic inside); any `some` result is
the Go program's behaviour. -/
def Eval : Nat → Node → Nat → Store → Option (Option Object × Store)
  | 0, _, _, _ => none
  | f + 1, node, env, st =>
    match node with
    | .prog statements => evalProgram (fun n e s => Eval f n e s) statements env st
    | .stm (.expressionStatement e) =>
      match e with
      | none => some (none, st)
      | some e => Eval f (.exp e) env st
    | .stm (.blockStatement statements) =>
      evalBlockStatement (fun n e s => Eval f n e s) statements none env st
    | .stm (.returnStatement rv) =>
      match (match rv with
             | none => some ((none : Option Object), st)
             | some e => Eval f (.exp e) env st) with
      | none => none
      | some (val, st1) =>
        if isError val then some (val, st1)
        else some (some (.returnValue val), st1)
    | .stm (.letStatement name value) =>
      match (match value with
             | none => some ((none : Option Object), st)
             | some e => Eval f (.exp e) env st) with
      | none => none
      | some (val, st1) =>
        if isError val then some (val, st1)
        else
          match name with
          | none => none
          | some n => some (none, envSet env n val st1)
    | .exp (.integerLiteral v) => some (some (.integer v), st)
    | .exp (.booleanLit b) => some (some (nativeBoolToBooleanObject b), st)
    | .exp (.prefixExpression operator right) =>
      match (match right with
             | none => some ((none : Option Object), st)
             | some e => Eval f (.exp e) env st) with
      | none => none
      | some (r, st1) =>
        if isError r then some (r, st1)
        else
          match evalPrefixExpression operator r with
          | none => none
          | some o => some (some o, st1)
    | .exp (.infixExpression operator left right) =>
      match (match left with
             | none => some ((none : Option Object), st)
             | some e => Eval f (.exp e) env st) with
      | none => none
      | some (l, st1) =>
        if isError l then some (l, st1)
        else
          match (match right with
                 | none => some ((none : Option Object), st1)
                 | some e => Eval f (.exp e) env st1) with
          | none => none
          | some (r, st2) =>
            if isError r then some (r, st2)
            else
              match l, r with
              | some lo, some ro =>
                match evalInfixExpression operator lo ro with
                | none => none
                | some o => some (some o, st2)
              | _, _ => none
    | .exp (.ifExpression condition consequence alternative) =>
      evalIfExpression (fun n e s => Eval f n e s) condition consequence alternative env st
    | .exp (.identifier name) => evalIdentifier env name st
    | .exp (.functionLiteral parameters body) =>
      some (some (.function parameters body env), st)
    | .exp (.callExpression fexp args) =>
      match (match fexp with
             | none => some ((none : Option Object), st)
             | some e => Eval f (.exp e) env st) with
      | none => none
      | some (fv, st1) =>
        if isError fv then some (fv, st1)
        else
          match evalExpressions (fun n e s => Eval f n e s) args env st1 with
          | none => none
          | some (.inl err, st2) => some (some err, st2)
          | some (.inr vals, st2) => applyFunction (fun n e s => Eval f n e s) fv vals st2
    | _ => some (none, st)

/-- `isMacroDefinition`: the statement is a `*ast.LetStatement` whose
`Value` is a `*ast.MacroLiteral` (a `nil` value fails the type assertion). -/
def isMacroDefinition : Statement → Bool
  | .letStatement _ (some (.macroLiteral _ _)) => true
  | _ => false

/-- `addMacro`: read the let statement's name and macro literal (the Go
type assertions use a discarded `ok` and would dereference `nil` on any
other shape — embedded as `none`) and bind the name to a `Macro` object
carrying the literal's parameters and body and the given environment. -/
def addMacro : Statement → Nat → Store → Option Store
  | .letStatement (some n) (some (.macroLiteral parameters body)), env, st =>
    some (envSet env n (some (.macroObject parameters body env)) st)
  | _, _, _ => none

/-- The first pass of `DefineMacros`: walk the statements with their index,
`addMacro` each macro definition in order, and record its position. -/
def defineMacrosLoop : List Statement → Nat → Nat → Store → Option (List Nat × Store)
  | [], _, _, st => some ([], st)
  | statement :: rest, i, env, st =>
    if isMacroDefinition statement then
      match addMacro statement env st with
      | none => none
      | some st1 =>
        match defineMacrosLoop rest (i + 1) env st1 with
        | none => none
        | some (idxs, st2) => some (i :: idxs, st2)
    else
      defineMacrosLoop rest (i + 1) env st

/-- The second pass of `DefineMacros`: remove the recorded definitions from
the statement list, last recorded index first (`append(stmts[:i], stmts[i+1:]...)`). -/
def removeDefinitions (statements : List Statement) (definitions : List Nat) : List Statement :=
  definitions.reverse.foldl (fun acc i => acc.eraseIdx i) statements

/-- `DefineMacros`: find the macro definitions, bind them in the
environment, and remove them from the program's statements. -/
def DefineMacros (statements : List Statement) (env : Nat) (st : Store) :
    Option (List Statement × Store) :=
  match defineMacrosLoop statements 0 env st with
  | none => none
  | some (definitions, st1) => some (removeDefinitions statements definitions, st1)

/-- Modelled from the spec: the closed set of token kinds (the `token`
package is absent from the sources; the set is the spec's list: identifier,
integer literal, the keywords, single- and two-character punctuation, EOF
and an `illegal` sentinel). -/
inductive TokenType where
  | ILLEGAL | EOF
  | IDENT | INT
  | ASSIGN | PLUS | MINUS | BANG | ASTERISK | SLASH
  | LT | GT | EQ | NOT_EQ
  | COMMA | SEMICOLON
  | LPAREN | RPAREN | LBRACE | RBRACE
  | FUNCTION | LET | TRUE | FALSE | IF | ELSE | RETURN | MACRO
deriving DecidableEq, Repr

/-- Modelled from the spec: a token is a pair of kind and the exact source
substring that produced it. -/
structure Token where
  type : TokenType
  literal : String
deriving DecidableEq, Repr

/-- Modelled from the spec: the rendering of a token kind inside parser
error messages (the `token` package's string constants are absent from the
sources; no claim observes these strings beyond the error list being
empty). -/
def tokenTypeString : TokenType → String
  | .ILLEGAL => "ILLEGAL" | .EOF => "EOF"
  | .IDENT => "IDENT" | .INT => "INT"
  | .ASSIGN => "=" | .PLUS => "+" | .MINUS => "-" | .BANG => "!" | .ASTERISK => "*"
  | .SLASH => "/" | .LT => "<" | .GT => ">" | .EQ => "==" | .NOT_EQ => "!="
  | .COMMA => "," | .SEMICOLON => ";"
  | .LPAREN => "(" | .RPAREN => ")" | .LBRACE => "\x7b" | .RBRACE => "\x7d"
  | .FUNCTION => "FUNCTION" | .LET => "LET" | .TRUE => "TRUE" | .FALSE => "FALSE"
  | .IF => "IF" | .ELSE => "ELSE" | .RETURN => "RETURN" | .MACRO => "MACRO"

/-- The parser state: the lexer (embedded as the list of tokens not yet
handed out, with `NextToken` yielding `EOF` forever once it is empty), the
current and peek tokens, and the error log. -/
structure Parser where
  curToken : Token
  peekToken : Token
  rest : List Token
  errors : List String
deriving DecidableEq, Repr

/-- One `l.NextToken()` step of the embedded lexer stream. -/
def nextTokenL : List Token → Token × List Token
  | [] => (⟨.EOF, ""⟩, [])
  | t :: ts => (t, ts)

/-- `p.nextToken()`: shift peek into cur and pull one token from the lexer. -/
def pNextToken (p : Parser) : Parser :=
  let (t, ts) := nextTokenL p.rest
  ⟨p.peekToken, t, ts, p.errors⟩

/-- `parser.New`: register the dispatch tables (embedded as the matches in
`parseExpression` and its loop) and read two tokens.  The zero-valued
initial cur/peek tokens are overwritten before they can be read. -/
def parserNew (tokens : List Token) : Parser :=
  pNextToken (pNextToken ⟨⟨.ILLEGAL, ""⟩, ⟨.ILLEGAL, ""⟩, tokens, []⟩)

def curTokenIs (p : Parser) (t : TokenType) : Bool := p.curToken.type == t

def peekTokenIs (p : Parser) (t : TokenType) : Bool := p.peekToken.type == t

/-- `peekError`: append "expected next token to be X, got Y instead". -/
def peekError (p : Parser) (t : TokenType) : Parser :=
  { p with errors := p.errors ++
      ["expected next token to be " ++ tokenTypeString t ++ ", got " ++
        tokenTypeString p.peekToken.type ++ " instead"] }

/-- `expectPeek`: advance exactly when the peek token has the wanted kind,
otherwise record a `peekError`. -/
def expectPeek (p : Parser) (t : TokenType) : Bool × Parser :=
  if peekTokenIs p t then (true, pNextToken p)
  else (false, peekError p t)

/-- `noPrefixParseFnError`. -/
def noPrefixParseFnError (p : Parser) (t : TokenType) : Parser :=
  { p with errors := p.errors ++
      ["no prefix parse function for " ++ tokenTypeString t ++ " found"] }

/-- The precedence ladder (`iota` constants). -/
def LOWEST : Nat := 1
def EQUALS : Nat := 2
def LESSGREATER : Nat := 3
def SUM : Nat := 4
def PRODUCT : Nat := 5
def PREFIX : Nat := 6
def CALL : Nat := 7

/-- The `precedences` table; kinds outside it default to `LOWEST`. -/
def precedenceOf : TokenType → Nat
  | .EQ => EQUALS
  | .NOT_EQ => EQUALS
  | .LT => LESSGREATER
  | .GT => LESSGREATER
  | .PLUS => SUM
  | .MINUS => SUM
  | .SLASH => PRODUCT
  | .ASTERISK => PRODUCT
  | .LPAREN => CALL
  | _ => LOWEST

def peekPrecedence (p : Parser) : Nat := precedenceOf p.peekToken.type

def curPrecedence (p : Parser) : Nat := precedenceOf p.curToken.type

/-- One digit-run step of `strconv.ParseInt`'s digit accumulation. -/
def parseIntDigits (base : Nat) : List Char → Nat → Option Nat
  | [], acc => some acc
  | c :: rest, acc =>
    if c.isDigit && c.toNat - '0'.toNat < base then
      parseIntDigits base rest (acc * base + (c.toNat - '0'.toNat))
    else none

/-- Models `strconv.ParseInt(lit, 0, 64)` on the digit-run literals the
lexer produces: base 0 makes a leading `0` select octal (a digit 8 or 9 is
then a syntax error), anything above `2^63 - 1` is a range error, and both
errors make the caller record a parse error and yield no expression. -/
def parseIntGo (lit : String) : Option Int :=
  match lit.toList with
  | [] => none
  | ['0'] => some 0
  | '0' :: rest =>
    match parseIntDigits 8 rest 0 with
    | some v => if v ≤ 2 ^ 63 - 1 then some (Int.ofNat v) else none
    | none => none
  | cs =>
    match parseIntDigits 10 cs 0 with
    | some v => if v ≤ 2 ^ 63 - 1 then some (Int.ofNat v) else none
    | none => none

/-- `parseIdentifier`: the current token's literal, no token advanced. -/
def parseIdentifier (p : Parser) : Option Expression × Parser :=
  (some (.identifier p.curToken.literal), p)

/-- `parseIntegerLiteral`: convert the current literal; on failure record
"could not parse %q as integer" and yield nothing. -/
def parseIntegerLiteral (p : Parser) : Option Expression × Parser :=
  match parseIntGo p.curToken.literal with
  | some value => (some (.integerLiteral value), p)
  | none =>
    (none, { p with errors := p.errors ++
        ["could not parse \"" ++ p.curToken.literal ++ "\" as integer"] })

/-- `parseBoolean`. -/
def parseBoolean (p : Parser) : Option Expression × Parser :=
  (some (.booleanLit (curTokenIs p .TRUE)), p)

/-- The token-skipping loop of `parseLetStatement` and
`parseReturnStatement` (`for !p.curTokenIs(token.SEMICOLON) { p.nextToken() }`);
it does not terminate in Go when no semicolon is left, embedded as `none`
on fuel exhaustion. -/
def skipToSemicolon : Nat → Parser → Option Parser
  | 0, _ => none
  | f + 1, p =>
    if curTokenIs p .SEMICOLON then some p
    else skipToSemicolon f (pNextToken p)

/-- `parseLetStatement`: assert IDENT then `=`, then skip tokens up to the
semicolon without parsing the right-hand expression (the source's TODO
bug), leaving the statement's `Value` empty. -/
def parseLetStatement (f : Nat) (p : Parser) : Option (Option Statement × Parser) :=
  match expectPeek p .IDENT with
  | (false, p1) => some (none, p1)
  | (true, p1) =>
    let name := p1.curToken.literal
    match expectPeek p1 .ASSIGN with
    | (false, p2) => some (none, p2)
    | (true, p2) =>
      match skipToSemicolon f p2 with
      | none => none
      | some p3 => some (some (.letStatement (some name) none), p3)

/-- `parseReturnStatement`: advance once, then skip tokens up to the
semicolon without parsing the return expression (the source's TODO bug),
leaving the statement's `ReturnValue` empty. -/
def parseReturnStatement (f : Nat) (p : Parser) : Option (Option Statement × Parser) :=
  match skipToSemicolon f (pNextToken p) with
  | none => none
  | some p1 => some (some (.returnStatement none), p1)

/- The mutually recursive Pratt core.  The two Go dispatch maps, filled
once in `parser.New`, are embedded as the matches on the current (prefix
handlers) and peek (infix handlers) token kind in `parseExpression` and
`parseExpressionLoop`.  Every function takes recursion fuel; `none` is fuel
exhaustion, never a Go behaviour. -/
mutual

/-- `parseStatement`: dispatch on the current token kind. -/
def parseStatement : Nat → Parser → Option (Option Statement × Parser)
  | 0, _ => none
  | f + 1, p =>
    match p.curToken.type with
    | .LET => parseLetStatement f p
    | .RETURN => parseReturnStatement f p
    | _ => parseExpressionStatement f p

/-- `parseExpressionStatement`: one expression, then an optional semicolon. -/
def parseExpressionStatement : Nat → Parser → Option (Option Statement × Parser)
  | 0, _ => none
  | f + 1, p =>
    match parseExpression f LOWEST p with
    | none => none
    | some (e, p1) =>
      let p2 := if peekTokenIs p1 .SEMICOLON then pNextToken p1 else p1
      some (some (.expressionStatement e), p2)

/-- `parseExpression`: look up the prefix handler for the current kind (no
handler records an error and yields nothing without running the infix
loop), then fold infix handlers while the peek token binds tighter. -/
def parseExpression : Nat → Nat → Parser → Option (Option Expression × Parser)
  | 0, _, _ => none
  | f + 1, precedence, p =>
    match p.curToken.type with
    | .IDENT =>
      let (le, p1) := parseIdentifier p
      parseExpressionLoop f precedence le p1
    | .INT =>
      let (le, p1) := parseIntegerLiteral p
      parseExpressionLoop f precedence le p1
    | .BANG =>
      match parsePrefixExpression f p with
      | none => none
      | some (le, p1) => parseExpressionLoop f precedence le p1
    | .MINUS =>
      match parsePrefixExpression f p with
      | none => none
      | some (le, p1) => parseExpressionLoop f precedence le p1
    | .TRUE =>
      let (le, p1) := parseBoolean p
      parseExpressionLoop f precedence le p1
    | .FALSE =>
      let (le, p1) := parseBoolean p
      parseExpressionLoop f precedence le p1
    | .LPAREN =>
      match parseGroupedExpression f p with
      | none => none
      | some (le, p1) => parseExpressionLoop f precedence le p1
    | .IF =>
      match parseIfExpression f p with
      | none => none
      | some (le, p1) => parseExpressionLoop f precedence le p1
    | .FUNCTION =>
      match parseFunctionLiteral f p with
      | none => none
      | some (le, p1) => parseExpressionLoop f precedence le p1
    | t => some (none, noPrefixParseFnError p t)

/-- The infix loop of `parseExpression`: while the peek token is not `;`
and binds tighter than `precedence`, advance and run the registered infix
handler on the left expression (kinds with a precedence but no handler
would fall out of the loop; every kind in the table has a handler). -/
def parseExpressionLoop : Nat → Nat → Option Expression → Parser → Option (Option Expression × Parser)
  | 0, _, _, _ => none
  | f + 1, precedence, leftExp, p =>
    if !peekTokenIs p .SEMICOLON && precedence < peekPrecedence p then
      match p.peekToken.type with
      | .PLUS | .MINUS | .SLASH | .ASTERISK | .EQ | .NOT_EQ | .LT | .GT =>
        match parseInfixExpression f leftExp (pNextToken p) with
        | none => none
        | some (le, p1) => parseExpressionLoop f precedence le p1
      | .LPAREN =>
        match parseCallExpression f leftExp (pNextToken p) with
        | none => none
        | some (le, p1) => parseExpressionLoop f precedence le p1
      | _ => some (leftExp, p)
    else some (leftExp, p)

/-- `parsePrefixExpression`: capture the operator literal, advance, recurse
at `PREFIX`. -/
def parsePrefixExpression : Nat → Parser → Option (Option Expression × Parser)
  | 0, _ => none
  | f + 1, p =>
    let operator := p.curToken.literal
    match parseExpression f PREFIX (pNextToken p) with
    | none => none
    | some (right, p1) => some (some (.prefixExpression operator right), p1)

/-- `parseInfixExpression` (called with the parser already advanced onto
the operator token): capture operator and its precedence, advance, recurse
at the saved precedence. -/
def parseInfixExpression : Nat → Option Expression → Parser → Option (Option Expression × Parser)
  | 0, _, _ => none
  | f + 1, left, p =>
    let operator := p.curToken.literal
    let precedence := curPrecedence p
    match parseExpression f precedence (pNextToken p) with
    | none => none
    | some (right, p1) => some (some (.infixExpression operator left right), p1)

/-- `parseGroupedExpression`: advance, recurse at `LOWEST`, require `)`;
parentheses leave no node. -/
def parseGroupedExpression : Nat → Parser → Option (Option Expression × Parser)
  | 0, _ => none
  | f + 1, p =>
    match parseExpression f LOWEST (pNextToken p) with
    | none => none
    | some (exp, p1) =>
      match expectPeek p1 .RPAREN with
      | (false, p2) => some (none, p2)
      | (true, p2) => some (exp, p2)

/-- `parseIfExpression`: `if ( expression ) { block } [ else { block } ]`. -/
def parseIfExpression : Nat → Parser → Option (Option Expression × Parser)
  | 0, _ => none
  | f + 1, p =>
    match expectPeek p .LPAREN with
    | (false, p1) => some (none, p1)
    | (true, p1) =>
      match parseExpression f LOWEST (pNextToken p1) with
      | none => none
      | some (condition, p2) =>
        match expectPeek p2 .RPAREN with
        | (false, p3) => some (none, p3)
        | (true, p3) =>
          match expectPeek p3 .LBRACE with
          | (false, p4) => some (none, p4)
          | (true, p4) =>
            match parseBlockStatement f p4 with
            | none => none
            | some (consequence, p5) =>
              if peekTokenIs p5 .ELSE then
                match expectPeek (pNextToken p5) .LBRACE with
                | (false, p6) => some (none, p6)
                | (true, p6) =>
                  match parseBlockStatement f p6 with
                  | none => none
                  | some (alternative, p7) =>
                    some (some (.ifExpression condition consequence (some alternative)), p7)
              else some (some (.ifExpression condition consequence none), p5)

/-- `parseBlockStatement`: advance past `{`, then collect statements until
`}` or EOF. -/
def parseBlockStatement : Nat → Parser → Option (List Statement × Parser)
  | 0, _ => none
  | f + 1, p => parseBlockLoop f [] (pNextToken p)

/-- The statement loop of `parseBlockStatement`; a `nil` statement is
skipped silently. -/
def parseBlockLoop : Nat → List Statement → Parser → Option (List Statement × Parser)
  | 0, _, _ => none
  | f + 1, acc, p =>
    if curTokenIs p .RBRACE || curTokenIs p .EOF then some (acc, p)
    else
      match parseStatement f p with
      | none => none
      | some (stmtOpt, p1) =>
        let acc1 := match stmtOpt with
          | some s => acc ++ [s]
          | none => acc
        parseBlockLoop f acc1 (pNextToken p1)

/-- `parseFunctionLiteral`: `fn ( identlist ) { block }`.  A failed
parameter list leaves a `nil` slice, indistinguishable in behaviour from an
empty one (both range and measure the same), embedded as `[]`. -/
def parseFunctionLiteral : Nat → Parser → Option (Option Expression × Parser)
  | 0, _ => none
  | f + 1, p =>
    match expectPeek p .LPAREN with
    | (false, p1) => some (none, p1)
    | (true, p1) =>
      match parseFunctionParameters f p1 with
      | none => none
      | some (parameters, p2) =>
        match expectPeek p2 .LBRACE with
        | (false, p3) => some (none, p3)
        | (true, p3) =>
          match parseBlockStatement f p3 with
          | none => none
          | some (body, p4) => some (some (.functionLiteral parameters body), p4)

/-- `parseFunctionParameters`: an optional comma-separated identifier list
closed by `)`. -/
def parseFunctionParameters : Nat → Parser → Option (List String × Parser)
  | 0, _ => none
  | f + 1, p =>
    if peekTokenIs p .RPAREN then some ([], pNextToken p)
    else
      let p1 := pNextToken p
      parseFunctionParametersLoop f [p1.curToken.literal] p1

/-- The comma loop of `parseFunctionParameters`; a missing `)` yields the
`nil` slice, embedded as `[]`. -/
def parseFunctionParametersLoop : Nat → List String → Parser → Option (List String × Parser)
  | 0, _, _ => none
  | f + 1, identifiers, p =>
    if peekTokenIs p .COMMA then
      let p1 := pNextToken (pNextToken p)
      parseFunctionParametersLoop f (identifiers ++ [p1.curToken.literal]) p1
    else
      match expectPeek p .RPAREN with
      | (false, p1) => some (([] : List String), p1)
      | (true, p1) => some (identifiers, p1)

/-- `parseCallExpression` (called with the parser advanced onto the `(`):
the already-parsed callee becomes `Function`, then the argument list. -/
def parseCallExpression : Nat → Option Expression → Parser → Option (Option Expression × Parser)
  | 0, _, _ => none
  | f + 1, function, p =>
    match parseCallArguments f p with
    | none => none
    | some (arguments, p1) => some (some (.callExpression function arguments), p1)

/-- `parseCallArguments`: an optional comma-separated expression list
closed by `)`. -/
def parseCallArguments : Nat → Parser → Option (List (Option Expression) × Parser)
  | 0, _ => none
  | f + 1, p =>
    if peekTokenIs p .RPAREN then some ([], pNextToken p)
    else
      match parseExpression f LOWEST (pNextToken p) with
      | none => none
      | some (a, p1) => parseCallArgumentsLoop f [a] p1

/-- The comma loop of `parseCallArguments`; a missing `)` yields the `nil`
slice, embedded as `[]`. -/
def parseCallArgumentsLoop : Nat → List (Option Expression) → Parser → Option (List (Option Expression) × Parser)
  | 0, _, _ => none
  | f + 1, args, p =>
    if peekTokenIs p .COMMA then
      match parseExpression f LOWEST (pNextToken (pNextToken p)) with
      | none => none
      | some (a, p1) => parseCallArgumentsLoop f (args ++ [a]) p1
    else
      match expectPeek p .RPAREN with
      | (false, p1) => some (([] : List (Option Expression)), p1)
      | (true, p1) => some (args, p1)

end

/-- The statement loop of `ParseProgram`: until the current token is EOF,
parse one statement (skipping `nil` results) and advance. -/
def parseProgramLoop : Nat → List Statement → Parser → Option (List Statement × Parser)
  | 0, _, _ => none
  | f + 1, acc, p =>
    if curTokenIs p .EOF then some (acc, p)
    else
      match parseStatement f p with
      | none => none
      | some (stmtOpt, p1) =>
        let acc1 := match stmtOpt with
          | some s => acc ++ [s]
          | none => acc
        parseProgramLoop f acc1 (pNextToken p1)

/-- `ParseProgram` over a token stream. -/
def ParseProgram (f : Nat) (tokens : List Token) : Option (List Statement × Parser) :=
  parseProgramLoop f [] (parserNew tokens)

/-- Modelled from the spec: the lexer's *letter* class (`a-z`, `A-Z`, `_`). -/
def isLetterGo (c : Char) : Bool :=
  ('a' ≤ c && c ≤ 'z') || ('A' ≤ c && c ≤ 'Z') || c == '_'

/-- Modelled from the spec: the lexer's *digit* class (`0-9`). -/
def isDigitGo (c : Char) : Bool := '0' ≤ c && c ≤ '9'

/-- Modelled from the spec: the keyword table consulted after an identifier
run. -/
def lookupIdent (s : String) : TokenType :=
  if s == "let" then .LET
  else if s == "fn" then .FUNCTION
  else if s == "if" then .IF
  else if s == "else" then .ELSE
  else if s == "return" then .RETURN
  else if s == "true" then .TRUE
  else if s == "false" then .FALSE
  else if s == "macro" then .MACRO
  else .IDENT

/-- Modelled from the spec: `NextToken` over the remaining input.  Skip
whitespace; recognise `==`/`!=` by one-byte peek; single-character
punctuation; identifier runs (read while letter or digit, then the keyword
table); digit runs; EOF on exhausted input; anything else is `illegal`.
Fuel bounds the whitespace skip; `none` never occurs with fuel above the
input length. -/
def nextTokenSpec : Nat → List Char → Option (Token × List Char)
  | 0, _ => none
  | _ + 1, [] => some (⟨.EOF, ""⟩, [])
  | f + 1, c :: cs =>
    if c == ' ' || c == '\t' || c == '\n' || c == '\r' then nextTokenSpec f cs
    else if c == '=' then
      match cs with
      | '=' :: cs1 => some (⟨.EQ, "=="⟩, cs1)
      | _ => some (⟨.ASSIGN, "="⟩, cs)
    else if c == '!' then
      match cs with
      | '=' :: cs1 => some (⟨.NOT_EQ, "!="⟩, cs1)
      | _ => some (⟨.BANG, "!"⟩, cs)
    else if c == '+' then some (⟨.PLUS, "+"⟩, cs)
    else if c == '-' then some (⟨.MINUS, "-"⟩, cs)
    else if c == '*' then some (⟨.ASTERISK, "*"⟩, cs)
    else if c == '/' then some (⟨.SLASH, "/"⟩, cs)
    else if c == '<' then some (⟨.LT, "<"⟩, cs)
    else if c == '>' then some (⟨.GT, ">"⟩, cs)
    else if c == ',' then some (⟨.COMMA, ","⟩, cs)
    else if c == ';' then some (⟨.SEMICOLON, ";"⟩, cs)
    else if c == '(' then some (⟨.LPAREN, "("⟩, cs)
    else if c == ')' then some (⟨.RPAREN, ")"⟩, cs)
    else if c == '{' then some (⟨.LBRACE, "\x7b"⟩, cs)
    else if c == '}' then some (⟨.RBRACE, "\x7d"⟩, cs)
    else if isLetterGo c then
      let run := (c :: cs).takeWhile fun x => isLetterGo x || isDigitGo x
      let lit := String.mk run
      some (⟨lookupIdent lit, lit⟩, (c :: cs).dropWhile fun x => isLetterGo x || isDigitGo x)
    else if isDigitGo c then
      let run := (c :: cs).takeWhile isDigitGo
      some (⟨.INT, String.mk run⟩, (c :: cs).dropWhile isDigitGo)
    else some (⟨.ILLEGAL, String.mk [c]⟩, cs)

/-- Modelled from the spec: the full token stream of a source buffer (the
trailing EOF token is left implicit; the embedded lexer stream hands out
EOF forever once the list is exhausted). -/
def tokenizeSpec : Nat → List Char → List Token
  | 0, _ => []
  | f + 1, cs =>
    match nextTokenSpec (f + 1) cs with
    | none => []
    | some (t, rest) =>
      if t.type == .EOF then []
      else t :: tokenizeSpec f rest

/-- `Boolean.Inspect` of the object-package variant that formats with the
`%t` verb: renders `"true"` / `"false"`. -/
def booleanInspectT (b : Bool) : String := if b then "true" else "false"

/-- `Boolean.Inspect` of the object-package variant that formats with the
`%d` verb applied to a bool: Go's fmt renders the bad-verb form
`%!d(bool=true)` / `%!d(bool=false)`. -/
def booleanInspectD (b : Bool) : String :=
  if b then "%!d(bool=true)" else "%!d(bool=false)"

/-- The positions of the macro definitions in a statement list, counting
from `i`: the `definitions` slice that the first pass of `DefineMacros`
collects. -/
def macroIndicesFrom : List Statement → Nat → List Nat
  | [], _ => []
  | s :: rest, i =>
    if isMacroDefinition s then i :: macroIndicesFrom rest (i + 1)
    else macroIndicesFrom rest (i + 1)

/-- The environment effect of `addMacro` on a well-shaped macro definition
(any other statement leaves the store unchanged; `DefineMacros` only
applies it to macro definitions). -/
def addMacroTotal (env : Nat) (acc : Store) : Statement → Store
  | .letStatement (some n) (some (.macroLiteral ps body)) =>
    envSet env n (some (.macroObject ps body env)) acc
  | _ => acc

/-- A store holding the single empty top-level environment. -/
def store0 : Store := [⟨[], none⟩]

/-- The source of the spec's return-unwrapping test case. -/
def c3Source : String := "if (10 > 1) { if (10 > 1) { return 10; } return 1; }"

/-- The AST the spec intends for `c3Source` (return statements carrying
their expressions, as the parser's TODO comment says they should). -/
def c3IntendedProgram : List Statement :=
  [.expressionStatement (some (.ifExpression
    (some (.infixExpression ">" (some (.integerLiteral 10)) (some (.integerLiteral 1))))
    [.expressionStatement (some (.ifExpression
        (some (.infixExpression ">" (some (.integerLiteral 10)) (some (.integerLiteral 1))))
        [.returnStatement (some (.integerLiteral 10))]
        none)),
      .returnStatement (some (.integerLiteral 1))]
    none))]

/-- The spec's closure scenario as an AST:
`let newAdder = fn(x) { fn(y) { x + y } }; let addTwo = newAdder(2); addTwo(3);`.
`addTwo(3)` finds `x` only through the fresh call frame's outer link to the
environment captured when the inner function literal was evaluated; the
caller's environment has no `x`. -/
def closureProgram : List Statement :=
  [.letStatement (some "newAdder") (some (.functionLiteral ["x"]
      [.expressionStatement (some (.functionLiteral ["y"]
        [.expressionStatement (some (.infixExpression "+"
          (some (.identifier "x")) (some (.identifier "y"))))]))])),
    .letStatement (some "addTwo") (some (.callExpression
      (some (.identifier "newAdder")) [some (.integerLiteral 2)])),
    .expressionStatement (some (.callExpression
      (some (.identifier "addTwo")) [some (.integerLiteral 3)]))]

/-- The parser state on the token stream of `let x = 5;`. -/
def letParserStart : Parser :=
  parserNew [⟨.LET, "let"⟩, ⟨.IDENT, "x"⟩, ⟨.ASSIGN, "="⟩, ⟨.INT, "5"⟩, ⟨.SEMICOLON, ";"⟩]

/-- The parser state on the token stream of `return 5;`. -/
def returnParserStart : Parser :=
  parserNew [⟨.RETURN, "return"⟩, ⟨.INT, "5"⟩, ⟨.SEMICOLON, ";"⟩]

/-- The parser state both statement parsers of the two witnesses end in:
stopped on the semicolon, the stream exhausted, no errors. -/
def semicolonParserEnd : Parser := ⟨⟨.SEMICOLON, ";"⟩, ⟨.EOF, ""⟩, [], []⟩

/-- A two-statement program for the `DefineMacros` witness: one macro
definition, one ordinary statement. -/
def macroWitnessProgram : List Statement :=
  [.letStatement (some "m") (some (.macroLiteral ["x"] [])),
    .expressionStatement (some (.integerLiteral 1))]

/-- The skip loop of the let/return statement parsers always ends on a
semicolon when it ends at all. -/
theorem skipToSemicolon_ends_on_semicolon :
    ∀ (f : Nat) (p p1 : Parser), skipToSemicolon f p = some p1 →
      curTokenIs p1 .SEMICOLON = true := by
  intro f
  induction f with
  | zero => intro p p1 h; simp [skipToSemicolon] at h
  | succ f ih =>
    intro p p1 h
    by_cases hc : curTokenIs p .SEMICOLON
    · simp only [skipToSemicolon, hc, if_pos] at h
      cases h
      exact hc
    · simp only [skipToSemicolon, hc, if_neg, Bool.false_eq_true] at h
      exact ih _ _ h

/-- Splitting the statement loop of `evalProgram` at a list append: the
second half runs only when the first half fell through normally, carrying
its last result and store. -/
theorem evalStatementsGo_append (evalF : EvalF) :
    ∀ (xs ys : List Statement) (prev : Option Object) (env : Nat) (st : Store),
      evalStatementsGo evalF (xs ++ ys) prev env st =
        match evalStatementsGo evalF xs prev env st with
        | none => none
        | some (.stopped v, st1) => some (.stopped v, st1)
        | some (.normal r, st1) => evalStatementsGo evalF ys r env st1 := by
  intro xs
  induction xs with
  | nil => intro ys prev env st; simp [evalStatementsGo]
  | cons s rest ih =>
    intro ys prev env st
    simp only [List.cons_append, evalStatementsGo]
    cases h : evalF (.stm s) env st with
    | none => rfl
    | some r1 =>
      obtain ⟨result, st1⟩ := r1
      cases result with
      | none => exact ih ys none env st1
      | some o =>
        cases o with
        | returnValue v => rfl
        | error m => rfl
        | integer v => exact ih ys _ env st1
        | boolean b => exact ih ys _ env st1
        | null => exact ih ys _ env st1
        | function a b c => exact ih ys _ env st1
        | macroObject a b c => exact ih ys _ env st1

/-- C6: for integer operands `==` and `!=` compare the unwrapped numeric
values (evaluating `5 == 5` yields `TRUE`) because the integer branch of
`evalInfixExpression` is ordered before the reference-identity branch;
reference identity applies only to the non-integer cases, where it
coincides with value comparison for the interned `TRUE`/`FALSE`/`NULL`
singletons. -/
theorem claim_C6_integer_equality_by_value :
    (∀ a b : Int,
      evalInfixExpression "==" (.integer a) (.integer b)
          = some (nativeBoolToBooleanObject (a == b)) ∧
      evalInfixExpression "!=" (.integer a) (.integer b)
          = some (nativeBoolToBooleanObject (a != b))) ∧
    (∀ (env : Nat) (st : Store),
      Eval 2 (.exp (.infixExpression "==" (some (.integerLiteral 5))
          (some (.integerLiteral 5)))) env st = some (some TRUE, st)) ∧
    (∀ b1 b2 : Bool,
      evalInfixExpression "==" (.boolean b1) (.boolean b2)
          = some (nativeBoolToBooleanObject (b1 == b2)) ∧
      evalInfixExpression "!=" (.boolean b1) (.boolean b2)
          = some (nativeBoolToBooleanObject (!(b1 == b2)))) ∧
    evalInfixExpression "==" .null .null = some TRUE := by
  refine ⟨fun a b => ⟨rfl, rfl⟩, fun env st => rfl, fun b1 b2 => ⟨rfl, rfl⟩, rfl⟩

/-- C7: the `/` branch for integer operands is unguarded truncating host
division: with divisor `0` the evaluator produces no value at all (the
source would abort; no `Error` object is made), and with a nonzero divisor
it yields the wrapped truncated quotient. -/
theorem claim_C7_division_unguarded :
    ∀ a b : Int,
      (b ≠ 0 →
        evalIntegerInfixExpression "/" (.integer a) (.integer b)
          = some (.integer (wrap64 (Int.tdiv a b)))) ∧
      evalIntegerInfixExpression "/" (.integer a) (.integer 0) = none ∧
      (∀ (env : Nat) (st : Store),
        Eval 2 (.exp (.infixExpression "/" (some (.integerLiteral 1))
          (some (.integerLiteral 0)))) env st = none) := by
  intro a b
  refine ⟨fun h => ?_, rfl, fun env st => rfl⟩
  simp [evalIntegerInfixExpression, h]

theorem claim_C7_division_unguarded_witness :
    (7 : Int) ≠ 0 ∧
    evalIntegerInfixExpression "/" (.integer 7) (.integer 2)
      = some (.integer (wrap64 (Int.tdiv 7 2))) :=
  ⟨by decide, (claim_C7_division_unguarded 7 2).1 (by decide)⟩

/-- C8: `Boolean.Inspect` renders `"true"`/`"false"` in the `%t` variant
of the object package, but the `%d` variant renders Go fmt's bad-verb
form, not `"true"`/`"false"`. -/
theorem claim_C8_boolean_inspect :
    booleanInspectT true = "true" ∧ booleanInspectT false = "false" ∧
    booleanInspectD true = "%!d(bool=true)" ∧
    booleanInspectD false = "%!d(bool=false)" :=
  ⟨rfl, rfl, rfl, rfl⟩

/-- C4: error values are sticky: an expression that evaluates to an error
makes `e + 1`, `-e`, and `if (e) { … }` evaluate to that same error with
the other operand or branch never evaluated (the store is exactly the one
the error left behind), and in general any infix or prefix operator
receiving the error in operand position yields it unchanged. -/
theorem claim_C4_error_stickiness :
    ∀ (f : Nat) (e : Expression) (m : String) (env : Nat) (st st1 : Store)
      (cons : List Statement) (alt : Option (List Statement)),
      Eval f (.exp e) env st = some (some (.error m), st1) →
      Eval (f + 1) (.exp (.infixExpression "+" (some e) (some (.integerLiteral 1)))) env st
          = some (some (.error m), st1) ∧
      Eval (f + 1) (.exp (.prefixExpression "-" (some e))) env st
          = some (some (.error m), st1) ∧
      Eval (f + 1) (.exp (.ifExpression (some e) cons alt)) env st
          = some (some (.error m), st1) ∧
      (∀ (op : String) (r : Option Expression),
        Eval (f + 1) (.exp (.infixExpression op (some e) r)) env st
          = some (some (.error m), st1)) ∧
      (∀ op : String,
        Eval (f + 1) (.exp (.prefixExpression op (some e))) env st
          = some (some (.error m), st1)) := by
  intro f e m env st st1 cons alt h
  refine ⟨?_, ?_, ?_, fun op r => ?_, fun op => ?_⟩ <;>
    simp [Eval, evalIfExpression, h, isError]

theorem claim_C4_error_stickiness_witness :
    Eval 2 (.exp (.infixExpression "+" (some (.identifier "x"))
        (some (.integerLiteral 1)))) 0 store0
      = some (some (.error "identifier not found: x"), store0) :=
  (claim_C4_error_stickiness 1 (.identifier "x") "identifier not found: x"
    0 store0 store0 [] none rfl).1

/-- C5 counterexample: `x` is unbound, so `x` evaluates to
`Error("identifier not found: x")`; evaluating `!x` yields that same error,
not `FALSE` — the `isError` check in `Eval`'s `PrefixExpression` case fires
before `evalBangOperatorExpression` is ever reached. -/
theorem claim_C5_counterexample :
    Eval 2 (.exp (.prefixExpression "!" (some (.identifier "x")))) 0 store0
      = some (some (.error "identifier not found: x"), store0) ∧
    ∀ st : Store,
      Eval 2 (.exp (.prefixExpression "!" (some (.identifier "x")))) 0 store0
        ≠ some (some FALSE, st) := by
  refine ⟨rfl, fun st h => ?_⟩
  rw [show Eval 2 (.exp (.prefixExpression "!" (some (.identifier "x")))) 0 store0
      = some (some (.error "identifier not found: x"), store0) from rfl] at h
  simp [FALSE] at h

/-- C5 amended: for every expression that evaluates to `Error(m)`, `!e`
evaluates to that same `Error(m)` — the `!` operator is as sticky as every
other operator, because `Eval` short-circuits on `isError` before
dispatching; `evalBangOperatorExpression` itself, applied directly to an
error object (which `Eval` never does), would fall into its default branch
and return `FALSE`. -/
theorem claim_C5_amended :
    ∀ (f : Nat) (e : Expression) (m : String) (env : Nat) (st st1 : Store),
      Eval f (.exp e) env st = some (some (.error m), st1) →
      Eval (f + 1) (.exp (.prefixExpression "!" (some e))) env st
          = some (some (.error m), st1) ∧
      evalBangOperatorExpression (some (.error m)) = FALSE := by
  intro f e m env st st1 h
  refine ⟨?_, rfl⟩
  simp [Eval, h, isError]

theorem claim_C5_amended_witness :
    Eval 2 (.exp (.prefixExpression "!" (some (.identifier "y")))) 0 store0
        = some (some (.error "identifier not found: y"), store0) ∧
    evalBangOperatorExpression (some (.error "identifier not found: y")) = FALSE :=
  claim_C5_amended 1 (.identifier "y") "identifier not found: y" 0 store0 store0 rfl

/-- C2: a `let` statement the parser accepts (both IDENT and `=` assertions
succeeded) carries an empty `Value`, and a `return` statement it accepts
carries an empty `ReturnValue`: the right-hand expression was skipped, the
parser stopping on the next semicolon. -/
theorem claim_C2_let_return_skip_rhs :
    ∀ (f : Nat) (p p1 : Parser) (stmt : Statement),
      (parseLetStatement f p = some (some stmt, p1) →
        (∃ name, stmt = .letStatement (some name) none) ∧
          curTokenIs p1 .SEMICOLON = true) ∧
      (parseReturnStatement f p = some (some stmt, p1) →
        stmt = .returnStatement none ∧ curTokenIs p1 .SEMICOLON = true) := by
  intro f p p1 stmt
  constructor
  · intro h
    unfold parseLetStatement at h
    split at h
    · simp at h
    · split at h
      · simp at h
      · split at h
        · simp at h
        · rename_i p3 hskip
          simp only [Option.some.injEq, Prod.mk.injEq] at h
          obtain ⟨hstmt, hp⟩ := h
          cases hstmt
          subst hp
          exact ⟨⟨_, rfl⟩, skipToSemicolon_ends_on_semicolon f _ _ hskip⟩
  · intro h
    unfold parseReturnStatement at h
    split at h
    · simp at h
    · rename_i p2 hskip
      simp only [Option.some.injEq, Prod.mk.injEq] at h
      obtain ⟨hstmt, hp⟩ := h
      cases hstmt
      subst hp
      exact ⟨rfl, skipToSemicolon_ends_on_semicolon f _ _ hskip⟩

theorem claim_C2_let_return_skip_rhs_witness :
    ((∃ name, Statement.letStatement (some "x") none
        = Statement.letStatement (some name) none) ∧
      curTokenIs semicolonParserEnd .SEMICOLON = true) ∧
    (Statement.returnStatement none = Statement.returnStatement none ∧
      curTokenIs semicolonParserEnd .SEMICOLON = true) :=
  ⟨(claim_C2_let_return_skip_rhs 9 letParserStart semicolonParserEnd
      (.letStatement (some "x") none)).1 rfl,
    (claim_C2_let_return_skip_rhs 9 returnParserStart semicolonParserEnd
      (.returnStatement none)).2 rfl⟩

/-- C3: the spec's return-unwrapping test case, run end to end on the
embedded code.  The source parses `c3Source` without errors, but — because
`parseReturnStatement` skips the return expression — both return statements
carry an empty `ReturnValue`, so evaluating the parsed program yields no
object at all (Go `nil`), not `Integer(10)`.  On the AST the parser was
intended to build (`c3IntendedProgram`) the evaluator does behave as the
claim describes: the inner block propagates the `ReturnValue` unchanged and
`evalProgram` unwraps exactly one layer, yielding `Integer(10)`. -/
theorem claim_C3_return_unwrapping_code_bug :
    (ParseProgram 99 (tokenizeSpec 200 c3Source.toList)).map
        (fun r => (r.2.errors, Eval 99 (.prog r.1) 0 store0))
      = some ([], some (none, store0)) ∧
    Eval 99 (.prog c3IntendedProgram) 0 store0
      = some (some (.integer 10), store0) :=
  ⟨rfl, rfl⟩

/-- C1: evaluating a call expression evaluates the callee first,
propagating an error; evaluates the arguments in left-to-right order,
short-circuiting on the first error; and applies the function by allocating
a fresh environment frame whose outer link is the function's **captured**
environment `fenv` (not the caller's `env`), binding each parameter to the
corresponding argument positionally, evaluating the body as a block in that
frame, and unwrapping one outer `ReturnValue` layer.  The closing conjunct
runs the spec's closure scenario, which yields `5` only because the fresh
frame links to the captured environment. -/
theorem claim_C1_call_evaluation :
    (∀ (f : Nat) (fe : Expression) (m : String) (args : List (Option Expression))
        (env : Nat) (st st1 : Store),
      Eval f (.exp fe) env st = some (some (.error m), st1) →
      Eval (f + 1) (.exp (.callExpression (some fe) args)) env st
        = some (some (.error m), st1)) ∧
    (∀ (evalF : EvalF) (env : Nat) (st : Store),
      evalExpressions evalF [] env st = some (.inr [], st)) ∧
    (∀ (evalF : EvalF) (a : Expression) (rest : List (Option Expression)) (m : String)
        (env : Nat) (st st1 : Store),
      evalF (.exp a) env st = some (some (.error m), st1) →
      evalExpressions evalF (some a :: rest) env st = some (.inl (.error m), st1)) ∧
    (∀ (evalF : EvalF) (a : Expression) (rest : List (Option Expression))
        (v : Option Object) (vs : List (Option Object)) (env : Nat) (st st1 st2 : Store),
      evalF (.exp a) env st = some (v, st1) → isError v = false →
      evalExpressions evalF rest env st1 = some (.inr vs, st2) →
      evalExpressions evalF (some a :: rest) env st = some (.inr (v :: vs), st2)) ∧
    (∀ (f : Nat) (fe : Expression) (ps : List String) (body : List Statement)
        (fenv : Nat) (args : List (Option Expression)) (vals : List (Option Object))
        (env : Nat) (st st1 st2 : Store),
      Eval f (.exp fe) env st = some (some (.function ps body fenv), st1) →
      evalExpressions (fun n e s => Eval f n e s) args env st1 = some (.inr vals, st2) →
      ps.length ≤ vals.length →
      Eval (f + 1) (.exp (.callExpression (some fe) args)) env st =
        (match Eval f (.stm (.blockStatement body)) st2.length
            (st2 ++ [⟨bindParameters ps vals, some fenv⟩]) with
         | none => none
         | some (evaluated, st3) => some (unwrapReturnValue evaluated, st3))) ∧
    (∀ v : Option Object, unwrapReturnValue (some (.returnValue v)) = v) ∧
    (Eval 99 (.prog closureProgram) 0 store0).map (fun r => r.1)
      = some (some (.integer 5)) := by
  refine ⟨?_, fun evalF env st => rfl, ?_, ?_, ?_, fun v => rfl, rfl⟩
  · intro f fe m args env st st1 h
    simp [Eval, h, isError]
  · intro evalF a rest m env st st1 h
    simp [evalExpressions, h]
  · intro evalF a rest v vs env st st1 st2 h hv hrest
    cases v with
    | none => simp [evalExpressions, h, hrest]
    | some o =>
      cases o with
      | error m => simp [isError] at hv
      | integer n => simp [evalExpressions, h, hrest]
      | boolean b => simp [evalExpressions, h, hrest]
      | null => simp [evalExpressions, h, hrest]
      | returnValue w => simp [evalExpressions, h, hrest]
      | function a b c => simp [evalExpressions, h, hrest]
      | macroObject a b c => simp [evalExpressions, h, hrest]
  · intro f fe ps body fenv args vals env st st1 st2 hfn hargs hlen
    simp [Eval, hfn, isError, hargs, applyFunction, hlen]

theorem claim_C1_call_evaluation_witness :
    Eval 6 (.exp (.callExpression
        (some (.functionLiteral ["x"] [.expressionStatement (some (.identifier "x"))]))
        [some (.integerLiteral 5)])) 0 store0 =
      (match Eval 5 (.stm (.blockStatement [.expressionStatement (some (.identifier "x"))]))
          store0.length
          (store0 ++ [⟨bindParameters ["x"] [some (.integer 5)], some 0⟩]) with
       | none => none
       | some (evaluated, st3) => some (unwrapReturnValue evaluated, st3)) :=
  (claim_C1_call_evaluation.2.2.2.2.1) 5
    (.functionLiteral ["x"] [.expressionStatement (some (.identifier "x"))])
    ["x"] [.expressionStatement (some (.identifier "x"))] 0
    [some (.integerLiteral 5)] [some (.integer 5)] 0 store0 store0 store0
    rfl rfl (by decide)

/-- Shifting the start index of the macro-position scan shifts every
collected position. -/
theorem macroIndicesFrom_succ :
    ∀ (xs : List Statement) (i : Nat),
      macroIndicesFrom xs (i + 1) = (macroIndicesFrom xs i).map (fun j => j + 1) := by
  intro xs
  induction xs with
  | nil => intro i; simp [macroIndicesFrom]
  | cons s rest ih =>
    intro i
    by_cases hp : isMacroDefinition s
    · simp [macroIndicesFrom, hp, ih (i + 1)]
    · simp [macroIndicesFrom, hp, ih (i + 1)]

/-- Erasing at shifted positions leaves the head element untouched. -/
theorem foldl_eraseIdx_map_succ :
    ∀ (l : List Nat) (s : Statement) (rest : List Statement),
      (l.map (fun j => j + 1)).foldl (fun acc i => acc.eraseIdx i) (s :: rest)
        = s :: l.foldl (fun acc i => acc.eraseIdx i) rest := by
  intro l
  induction l with
  | nil => intro s rest; simp
  | cons j l ih =>
    intro s rest
    simp only [List.map_cons, List.foldl_cons, List.eraseIdx_cons_succ]
    exact ih s (rest.eraseIdx j)

/-- The second pass of `DefineMacros` — erasing the collected macro
positions from last to first — is exactly filtering the macro definitions
out, preserving the order of the remaining statements. -/
theorem removeDefinitions_eq_filter :
    ∀ stmts : List Statement,
      removeDefinitions stmts (macroIndicesFrom stmts 0)
        = stmts.filter (fun s => !isMacroDefinition s) := by
  intro stmts
  induction stmts with
  | nil => simp [removeDefinitions, macroIndicesFrom]
  | cons s rest ih =>
    simp only [removeDefinitions] at ih ⊢
    by_cases hp : isMacroDefinition s
    · rw [show macroIndicesFrom (s :: rest) 0
            = 0 :: macroIndicesFrom rest 1 by simp [macroIndicesFrom, hp]]
      rw [macroIndicesFrom_succ, List.reverse_cons, List.foldl_append,
        ← List.map_reverse, foldl_eraseIdx_map_succ]
      simp only [List.foldl_cons, List.foldl_nil, List.eraseIdx_cons_zero]
      rw [ih]
      simp [List.filter_cons, hp]
    · rw [show macroIndicesFrom (s :: rest) 0
            = macroIndicesFrom rest 1 by simp [macroIndicesFrom, hp]]
      rw [macroIndicesFrom_succ, ← List.map_reverse, foldl_eraseIdx_map_succ]
      rw [ih]
      simp [List.filter_cons, hp]

/-- The first pass of `DefineMacros` collects exactly the macro-definition
positions and folds `addMacro` over the macro definitions in program
order (provided each macro definition carries a name, as every parsed let
statement does — on a nameless one the Go code would dereference `nil`). -/
theorem defineMacrosLoop_spec :
    ∀ (stmts : List Statement) (i env : Nat) (st : Store),
      (∀ s ∈ stmts, isMacroDefinition s = true →
        ∃ n ps body, s = .letStatement (some n) (some (.macroLiteral ps body))) →
      defineMacrosLoop stmts i env st
        = some (macroIndicesFrom stmts i,
            (stmts.filter (fun s => isMacroDefinition s)).foldl (addMacroTotal env) st) := by
  intro stmts
  induction stmts with
  | nil => intro i env st hnames; simp [defineMacrosLoop, macroIndicesFrom]
  | cons s rest ih =>
    intro i env st hnames
    by_cases hp : isMacroDefinition s
    · obtain ⟨n, ps, body, rfl⟩ := hnames s (by simp) hp
      simp only [defineMacrosLoop, hp, if_pos, addMacro]
      rw [ih (i + 1) env _ (fun t ht hm => hnames t (by simp [ht]) hm)]
      simp [macroIndicesFrom, hp, List.filter_cons, addMacroTotal]
    · simp only [defineMacrosLoop, hp, Bool.false_eq_true, if_neg, not_false_iff]
      rw [ih (i + 1) env st (fun t ht hm => hnames t (by simp [ht]) hm)]
      simp [macroIndicesFrom, hp, List.filter_cons]

/-- C9: `DefineMacros` removes from the statement list exactly the let
statements whose value is a macro literal, preserves the relative order of
the remaining statements, and binds each removed definition's name to a
`Macro` object carrying the literal's parameters, its body and the given
environment (the fold of `addMacroTotal`, whose one-step effect is the
final conjunct). -/
theorem claim_C9_define_macros :
    ∀ (stmts : List Statement) (env : Nat) (st : Store),
      (∀ s ∈ stmts, isMacroDefinition s = true →
        ∃ n ps body, s = .letStatement (some n) (some (.macroLiteral ps body))) →
      DefineMacros stmts env st
        = some (stmts.filter (fun s => !isMacroDefinition s),
            (stmts.filter (fun s => isMacroDefinition s)).foldl (addMacroTotal env) st) ∧
      (∀ (n : String) (ps : List String) (body : List Statement) (acc : Store),
        addMacroTotal env acc (.letStatement (some n) (some (.macroLiteral ps body)))
          = envSet env n (some (.macroObject ps body env)) acc) := by
  intro stmts env st hnames
  refine ⟨?_, fun n ps body acc => rfl⟩
  unfold DefineMacros
  rw [defineMacrosLoop_spec stmts 0 env st hnames]
  dsimp only
  rw [show removeDefinitions stmts (macroIndicesFrom stmts 0)
        = stmts.filter (fun s => !isMacroDefinition s) from removeDefinitions_eq_filter stmts]

theorem claim_C9_define_macros_witness :
    DefineMacros macroWitnessProgram 0 store0
      = some (macroWitnessProgram.filter (fun s => !isMacroDefinition s),
          (macroWitnessProgram.filter (fun s => isMacroDefinition s)).foldl
            (addMacroTotal 0) store0) :=
  (claim_C9_define_macros macroWitnessProgram 0 store0 (by
    intro s hs hm
    simp only [macroWitnessProgram, List.mem_cons, List.not_mem_nil, or_false] at hs
    rcases hs with rfl | rfl
    · exact ⟨"m", ["x"], [], rfl⟩
    · simp [isMacroDefinition] at hm)).1

/-- C10 counterexample: a program whose final (and only) statement is a let
statement whose right-hand side evaluates to an error does **not** make
`Eval` return an absent result: it returns the error object. -/
theorem claim_C10_counterexample :
    Eval 9 (.prog [.letStatement (some "x")
        (some (.prefixExpression "-" (some (.booleanLit true))))]) 0 store0
      = some (some (.error "unknown operator: -BOOLEAN"), store0) ∧
    ∀ st : Store,
      Eval 9 (.prog [.letStatement (some "x")
          (some (.prefixExpression "-" (some (.booleanLit true))))]) 0 store0
        ≠ some ((none : Option Object), st) := by
  refine ⟨rfl, fun st h => ?_⟩
  rw [show Eval 9 (.prog [.letStatement (some "x")
        (some (.prefixExpression "-" (some (.booleanLit true))))]) 0 store0
      = some (some (.error "unknown operator: -BOOLEAN"), store0) from rfl] at h
  simp at h

/-- C10 amended: `Eval` returns an absent result (Go `nil`, distinct from
the interned `NULL` value) for the empty program; and for a program whose
final statement is a let statement it returns `nil` provided the preceding
statements ran to completion without a `ReturnValue` or `Error`
short-circuit and the let's value expression did not evaluate to an error —
the let binds its value into the environment and produces no value. -/
theorem claim_C10_let_yields_no_value :
    (∀ (f env : Nat) (st : Store), Eval (f + 1) (.prog []) env st = some (none, st)) ∧
    (∀ (g : Nat) (stmts : List Statement) (name : String) (v : Option Expression)
        (env : Nat) (st st1 st2 : Store) (r val : Option Object),
      evalStatementsGo (fun n e s => Eval (g + 1) n e s) stmts none env st
          = some (.normal r, st1) →
      (match v with
       | none => some ((none : Option Object), st1)
       | some ve => Eval g (.exp ve) env st1) = some (val, st2) →
      isError val = false →
      Eval (g + 2) (.prog (stmts ++ [.letStatement (some name) v])) env st
        = some (none, envSet env name val st2)) := by
  refine ⟨fun f env st => rfl, ?_⟩
  intro g stmts name v env st st1 st2 r val hpre hval herr
  show evalProgram (fun n e s => Eval (g + 1) n e s)
      (stmts ++ [.letStatement (some name) v]) env st = _
  unfold evalProgram
  rw [evalStatementsGo_append, hpre]
  show (match evalStatementsGo (fun n e s => Eval (g + 1) n e s)
      [Statement.letStatement (some name) v] r env st1 with
    | none => none
    | some (out, st3) => some (out.val, st3)) = _
  simp only [evalStatementsGo]
  rw [show Eval (g + 1) (.stm (.letStatement (some name) v)) env st1
      = some ((none : Option Object), envSet env name val st2) by
    simp only [Eval]
    rw [hval]
    simp [herr]]
  simp [evalStatementsGo, ProgOut.val]

theorem claim_C10_let_yields_no_value_witness :
    Eval 3 (.prog [.letStatement (some "x") (some (.integerLiteral 5))]) 0 store0
      = some (none, envSet 0 "x" (some (.integer 5)) store0) := by
  have h := (claim_C10_let_yields_no_value).2 1 [] "x" (some (.integerLiteral 5))
    0 store0 store0 store0 none (some (.integer 5)) rfl rfl rfl
  simpa using h

end Monkey
